import Mathlib

/-!
Shallow embedding of the schedule-translation engine of
`systemd-cron-next` (`src/process.rs`): the override resolver, the
schedule translator (`generate_systemd_units`) and the interval
linearization routine (`linearize`), together with theorems checking
the natural-language specification against the code.
-/

namespace CronNext

/-- A bounded periodic integer domain (one per calendar field).
Modelled from the spec: the `Limited + Display` bound of `linearize` —
"each bounded domain type defines its own minimum and maximum legal
value", members are "rendered through the domain's display form". -/
structure BoundedDomain where
  min : Nat
  max : Nat
  display : Nat → String

/-- Modelled from the spec: an interval over a bounded domain is
"either full range with a step or explicit sub-range/step"
(`cronparse::interval::Interval`, external to this repository). -/
inductive Interval where
  | Full (step : Nat)
  | Range (lo hi step : Nat)
deriving DecidableEq, Repr

/-- Concrete member values of an arithmetic progression `lo, lo+step, …`
capped at `hi`. Modelled from the spec: "expand every interval to its
concrete member values". -/
def expandRange (lo hi step : Nat) : List Nat :=
  if step = 0 then []
  else (List.range (hi + 1 - lo)).filterMap
    (fun i => if i % step = 0 then some (lo + i) else none)

/-- Modelled from the spec: expansion of one interval over its domain
(`Interval::iter()` in `cronparse`). -/
def Interval.expand (d : BoundedDomain) : Interval → List Nat
  | .Full step => expandRange d.min d.max step
  | .Range lo hi step => expandRange lo hi step

/-- One insertion into an ordered set kept as a strictly sorted list:
the effect of `BTreeSet::insert` on the sorted element sequence. -/
def setInsert (x : Nat) : List Nat → List Nat
  | [] => [x]
  | y :: ys =>
    if x < y then x :: y :: ys
    else if x = y then y :: ys
    else y :: setInsert x ys

/-- `collect::<BTreeSet<_>>()` of `process.rs:168`: fold the values into
an ordered set; the result is the set's ascending iteration order. -/
def btreeSetOf (l : List Nat) : List Nat :=
  l.foldl (fun s x => setInsert x s) []

/-- All concrete values of a list of intervals, in input order
(the `flat_map(|v| v.iter())` of `process.rs:168`). -/
def expandAll (d : BoundedDomain) (input : List Interval) : List Nat :=
  input.flatMap (Interval.expand d)

/-- The comma-joining loop of `process.rs:167-173`: push each part then
a `','`, finally `pop()` the trailing separator (a no-op on empty). -/
def joinComma (parts : List String) : String :=
  (parts.foldl (fun acc p => acc ++ p ++ ",") "").dropRight 1

/-- `linearize` of `process.rs:163-175`. -/
def linearize (d : BoundedDomain) (input : List Interval) : String :=
  if input = [Interval.Full 1] then "*"
  else joinComma ((btreeSetOf (expandAll d input)).map d.display)

/-- Day-of-week domain. Modelled from the spec: "at most 7 weekdays";
display uses weekday names. -/
def dowDomain : BoundedDomain :=
  ⟨0, 7, fun n =>
    match n with
    | 0 => "Sun" | 1 => "Mon" | 2 => "Tue" | 3 => "Wed"
    | 4 => "Thu" | 5 => "Fri" | 6 => "Sat" | _ => "Sun"⟩

/-- Month domain 1-12, numeric display. Modelled from the spec. -/
def monDomain : BoundedDomain := ⟨1, 12, toString⟩

/-- Day-of-month domain 1-31, numeric display. Modelled from the spec. -/
def dayDomain : BoundedDomain := ⟨1, 31, toString⟩

/-- Hour domain 0-23, numeric display. Modelled from the spec:
"hour domain is 0-23". -/
def hourDomain : BoundedDomain := ⟨0, 23, toString⟩

/-- Minute domain 0-59, numeric display. Modelled from the spec. -/
def minDomain : BoundedDomain := ⟨0, 59, toString⟩

/-- Rust `str::parse::<u64>()`: an optional leading `+` followed by at
least one digit, failing on anything else or on overflow past `2^64-1`. -/
def parseU64 (s : String) : Option Nat :=
  let body :=
    match s.toList with
    | '+' :: rest => rest
    | cs => cs
  if body ≠ [] ∧ body.all Char.isDigit then
    let v := body.foldl (fun a c => a * 10 + (c.toNat - 48)) 0
    if v < 2 ^ 64 then some v else none
  else none

/-- Split at the first occurrence of `sep`: `none` when `sep` does not
occur, otherwise the pieces before and after it. -/
def breakAtSep (sep : Char) : List Char → Option (List Char × List Char)
  | [] => none
  | c :: cs =>
    if c = sep then some ([], cs)
    else (breakAtSep sep cs).map (fun p => (c :: p.1, p.2))

/-- Rust `str::splitn(n, sep)` on character lists: at most `n` pieces,
the last piece keeping the unsplit remainder; `n = 1` never splits. -/
def splitnChars (sep : Char) : Nat → List Char → List (List Char)
  | 0, _ => []
  | 1, cs => [cs]
  | n + 2, cs =>
    match breakAtSep sep cs with
    | none => [cs]
    | some (a, b) => a :: splitnChars sep (n + 1) b

/-- Rust `str::splitn(n, sep)` collected to a list of strings. -/
def rustSplitn (n : Nat) (sep : Char) (s : String) : List String :=
  (splitnChars sep n s.toList).map (fun cs => String.mk cs)

/-- `Period` of `cronparse::schedule`, as matched exhaustively by
`generate_systemd_units` (`process.rs:67-142`); the `Quaterly` spelling
is the source's. -/
inductive Period where
  | Reboot | Minutely | Hourly | Midnight | Daily | Weekly | Monthly
  | Quaterly | Biannually | Yearly
  | Days (n : Nat)
deriving DecidableEq, Repr

/-- `Calendar` of `cronparse::schedule`: five interval lists, as
destructured at `process.rs:144-150`. -/
structure Calendar where
  dows : List Interval
  days : List Interval
  mons : List Interval
  hrs : List Interval
  mins : List Interval
deriving DecidableEq, Repr

/-- `Schedule` of `cronparse::schedule`: a period or an explicit
calendar, mutually exclusive. -/
inductive Schedule where
  | Period (p : Period)
  | Calendar (c : Calendar)
deriving DecidableEq, Repr

/-- `CrontabEntry` job variants (`Anacron`, `User`, `System`), each
carrying its schedule, as matched at `process.rs:54`. -/
inductive CrontabEntry where
  | Anacron (sched : Schedule)
  | User (sched : Schedule)
  | System (sched : Schedule)
deriving DecidableEq, Repr

/-- `CrontabEntry::period()`: the period of the entry's schedule when it
has one. -/
def CrontabEntry.period : CrontabEntry → Option Period
  | .Anacron (.Period p) | .User (.Period p) | .System (.Period p) => some p
  | _ => none

/-- `CrontabEntry.calendar()`: the calendar of the entry's schedule when
it has one. -/
def CrontabEntry.calendar : CrontabEntry → Option Calendar
  | .Anacron (.Calendar c) | .User (.Calendar c) | .System (.Calendar c) => some c
  | _ => none

/-- The read-only view of the accumulated `BTreeMap<String, String>`
environment: lookup by key. -/
def Env : Type := String → Option String

/-- Default persistence when `PERSISTENT` is `auto`, empty or absent:
the `unwrap_or_else` closure of `process.rs:53-56`. -/
def defaultPersistent : CrontabEntry → Bool
  | .Anacron _ => true
  | .User (.Period _) => true
  | .System (.Period _) => true
  | _ => false

/-- Resolution of `PERSISTENT` (`process.rs:49-56`). -/
def resolvePersistent (env : Env) (entry : CrontabEntry) : Bool :=
  (((env "PERSISTENT").bind fun v =>
    if v = "yes" ∨ v = "true" ∨ v = "1" then some true
    else if v = "auto" ∨ v = "" then none
    else some false)).getD (defaultPersistent entry)

/-- Resolution of `BATCH` (`process.rs:58-61`). -/
def resolveBatch (env : Env) : Bool :=
  ((env "BATCH").map fun v =>
    decide (v = "yes" ∨ v = "true" ∨ v = "1")).getD false

/-- Resolution of `RANDOM_DELAY` (`process.rs:63`). -/
def resolveRandomDelay (env : Env) : Nat :=
  ((env "RANDOM_DELAY").bind parseU64).getD 1

/-- Resolution of `DELAY` (`process.rs:64`). -/
def resolveDelay (env : Env) : Nat :=
  ((env "DELAY").bind parseU64).getD 0

/-- Resolution of `START_HOURS_RANGE` (`process.rs:65`): note the
source splits with `splitn(1, '-')`. -/
def resolveHour (env : Env) : Nat :=
  ((env "START_HOURS_RANGE").bind fun v =>
    (rustSplitn 1 '-' v).head?.bind parseU64).getD 0

/-- The period match of `process.rs:67-142`: given the resolved
persistence, delay and hour, return the optional expression together
with the (possibly mutated) persistence and delay. -/
def translatePeriod (p : Period) (persistent : Bool) (delay hour : Nat) :
    Option String × Bool × Nat :=
  match p with
  | .Reboot => (none, false, if delay = 0 then 1 else delay)
  | .Minutely => (some "@minutely", false, delay)
  | .Hourly =>
    (if delay = 0 then some "@hourly"
     else some ("*-*-* *:" ++ toString delay ++ ":0"), persistent, delay)
  | .Midnight =>
    (if delay = 0 then some "@daily"
     else some ("*-*-* 0:" ++ toString delay ++ ":0"), persistent, delay)
  | .Daily =>
    (if delay = 0 ∧ hour = 0 then some "@daily"
     else some ("*-*-* " ++ toString hour ++ ":" ++ toString delay ++ ":0"),
     persistent, delay)
  | .Weekly =>
    (if delay = 0 ∧ hour = 0 then some "@weekly"
     else some ("Mon *-*-* " ++ toString hour ++ ":" ++ toString delay ++ ":0"),
     persistent, delay)
  | .Monthly =>
    (if delay = 0 ∧ hour = 0 then some "@monthly"
     else some ("*-*-1 " ++ toString hour ++ ":" ++ toString delay ++ ":0"),
     persistent, delay)
  | .Quaterly =>
    (if delay = 0 ∧ hour = 0 then some "@quaterly"
     else some ("*-1,4,7,10-1 " ++ toString hour ++ ":" ++ toString delay ++ ":0"),
     persistent, delay)
  | .Biannually =>
    (if delay = 0 ∧ hour = 0 then some "@semi-annually"
     else some ("*-1,7-1 " ++ toString hour ++ ":" ++ toString delay ++ ":0"),
     persistent, delay)
  | .Yearly =>
    (if delay = 0 ∧ hour = 0 then some "@yearly"
     else some ("*-1-1 " ++ toString hour ++ ":" ++ toString delay ++ ":0"),
     persistent, delay)
  | .Days n =>
    (if n > 31 then
       some ("*-1/" ++ toString (n / 30) ++ "-1 " ++ toString hour ++ ":" ++
             toString delay ++ ":0")
     else
       some ("*-*-1/" ++ toString n ++ " " ++ toString hour ++ ":" ++
             toString delay ++ ":0"),
     persistent, delay)

/-- The calendar branch of `process.rs:143-158`: the five fields are
linearized independently and joined. -/
def calendarExpr (c : Calendar) : String :=
  linearize dowDomain c.dows ++ " *-" ++ linearize monDomain c.mons ++ "-" ++
  linearize dayDomain c.days ++ " " ++ linearize hourDomain c.hrs ++ ":" ++
  linearize minDomain c.mins ++ ":00"

/-- The resolved decisions of one translation (the tuple the reference
behavior prints): the optional calendar expression and the final
persistence, batch, random-delay bound and delay. -/
structure UnitOutput where
  schedule : Option String
  persistent : Bool
  batch : Bool
  random_delay : Nat
  delay : Nat
deriving DecidableEq, Repr

/-- `generate_systemd_units` (`process.rs:44-161`) as a pure function of
the entry and the accumulated environment. -/
def generate_systemd_units (entry : CrontabEntry) (env : Env) : UnitOutput :=
  let persistent := resolvePersistent env entry
  let batch := resolveBatch env
  let random_delay := resolveRandomDelay env
  let delay := resolveDelay env
  let hour := resolveHour env
  let step :=
    match entry.period with
    | some p => translatePeriod p persistent delay hour
    | none => (none, persistent, delay)
  let sched :=
    match step.1 with
    | some s => some s
    | none => entry.calendar.map calendarExpr
  ⟨sched, step.2.1, batch, random_delay, step.2.2⟩

/-- The start-hour rule as the spec words it: the substring of the
value before the first `-`, parsed as a non-negative integer, with
default `0`. Modelled from the spec for comparison with `resolveHour`. -/
def hourSpec (v : Option String) : Nat :=
  match v with
  | none => 0
  | some s => (parseU64 (String.mk (s.toList.takeWhile (fun c => c ≠ '-')))).getD 0

/-- The persistence default as the spec words it: `true` iff the entry
is an anacron entry, or a user or system entry whose schedule is a
`Period` kind. For comparison with `defaultPersistent`. -/
def defaultPersistentSpec (entry : CrontabEntry) : Bool :=
  match entry with
  | .Anacron _ => true
  | .User s => match s with | .Period _ => true | .Calendar _ => false
  | .System s => match s with | .Period _ => true | .Calendar _ => false

/-- The `PERSISTENT` rule as the spec words it: explicit-true literals,
then the `auto`/empty/absent default, then `false` for anything else.
For comparison with `resolvePersistent`. -/
def persistentSpec (env : Env) (entry : CrontabEntry) : Bool :=
  if env "PERSISTENT" = some "yes" ∨ env "PERSISTENT" = some "true" ∨
     env "PERSISTENT" = some "1" then true
  else if env "PERSISTENT" = some "auto" ∨ env "PERSISTENT" = some "" ∨
          env "PERSISTENT" = none then defaultPersistentSpec entry
  else false

section LinearizeLemmas

lemma mem_setInsert (a x : Nat) (s : List Nat) :
    a ∈ setInsert x s ↔ a = x ∨ a ∈ s := by
  induction s with
  | nil => simp [setInsert]
  | cons y ys ih =>
    by_cases h1 : x < y
    · simp [setInsert, h1]
    · by_cases h2 : x = y
      · subst h2
        simp [setInsert, h1]
      · simp [setInsert, h1, h2, ih]
        tauto

lemma pairwise_setInsert (x : Nat) (s : List Nat)
    (h : s.Pairwise (· < ·)) : (setInsert x s).Pairwise (· < ·) := by
  induction s with
  | nil => simp [setInsert]
  | cons y ys ih =>
    rw [List.pairwise_cons] at h
    obtain ⟨hy, hys⟩ := h
    by_cases h1 : x < y
    · rw [setInsert, if_pos h1, List.pairwise_cons]
      refine ⟨?_, List.Pairwise.cons hy hys⟩
      intro z hz
      rcases List.mem_cons.mp hz with rfl | hz
      · exact h1
      · exact lt_trans h1 (hy z hz)
    · by_cases h2 : x = y
      · subst h2
        rw [setInsert, if_neg h1, if_pos rfl]
        exact List.Pairwise.cons hy hys
      · rw [setInsert, if_neg h1, if_neg h2, List.pairwise_cons]
        refine ⟨?_, ih hys⟩
        intro z hz
        rcases (mem_setInsert z x ys).mp hz with rfl | hz
        · omega
        · exact hy z hz

lemma pairwise_foldl_setInsert (l s : List Nat)
    (hs : s.Pairwise (· < ·)) :
    (l.foldl (fun s x => setInsert x s) s).Pairwise (· < ·) := by
  induction l generalizing s with
  | nil => exact hs
  | cons x xs ih => exact ih _ (pairwise_setInsert x s hs)

lemma mem_foldl_setInsert (a : Nat) (l s : List Nat) :
    a ∈ l.foldl (fun s x => setInsert x s) s ↔ a ∈ l ∨ a ∈ s := by
  induction l generalizing s with
  | nil => simp
  | cons x xs ih =>
    simp only [List.foldl_cons, ih, mem_setInsert, List.mem_cons]
    tauto

lemma btreeSetOf_pairwise (l : List Nat) :
    (btreeSetOf l).Pairwise (· < ·) :=
  pairwise_foldl_setInsert l [] (List.Pairwise.nil)

lemma mem_btreeSetOf (a : Nat) (l : List Nat) :
    a ∈ btreeSetOf l ↔ a ∈ l := by
  simp [btreeSetOf, mem_foldl_setInsert]

lemma eq_of_pairwise_lt_of_mem_iff (l₁ l₂ : List Nat)
    (h₁ : l₁.Pairwise (· < ·)) (h₂ : l₂.Pairwise (· < ·))
    (hm : ∀ a, a ∈ l₁ ↔ a ∈ l₂) : l₁ = l₂ := by
  have n₁ : l₁.Nodup := h₁.imp ne_of_lt
  have n₂ : l₂.Nodup := h₂.imp ne_of_lt
  have hp : l₁.Perm l₂ := (List.perm_ext_iff_of_nodup n₁ n₂).mpr hm
  exact List.eq_of_perm_of_sorted hp (h₁.imp le_of_lt) (h₂.imp le_of_lt)

lemma btreeSetOf_expandAll_perm (d : BoundedDomain)
    {l l' : List Interval} (h : l.Perm l') :
    btreeSetOf (expandAll d l) = btreeSetOf (expandAll d l') := by
  refine eq_of_pairwise_lt_of_mem_iff _ _ (btreeSetOf_pairwise _)
    (btreeSetOf_pairwise _) ?_
  intro a
  rw [mem_btreeSetOf, mem_btreeSetOf]
  unfold expandAll
  rw [List.mem_flatMap, List.mem_flatMap]
  constructor
  · rintro ⟨i, hi, ha⟩
    exact ⟨i, h.mem_iff.mp hi, ha⟩
  · rintro ⟨i, hi, ha⟩
    exact ⟨i, h.mem_iff.mpr hi, ha⟩

end LinearizeLemmas

section EntryLemmas

lemma calendar_none_of_period_some {entry : CrontabEntry} {p : Period}
    (h : entry.period = some p) : entry.calendar = none := by
  cases entry with
  | Anacron s => cases s <;> simp_all [CrontabEntry.period, CrontabEntry.calendar]
  | User s => cases s <;> simp_all [CrontabEntry.period, CrontabEntry.calendar]
  | System s => cases s <;> simp_all [CrontabEntry.period, CrontabEntry.calendar]

lemma period_none_of_calendar_some {entry : CrontabEntry} {c : Calendar}
    (h : entry.calendar = some c) : entry.period = none := by
  cases entry with
  | Anacron s => cases s <;> simp_all [CrontabEntry.period, CrontabEntry.calendar]
  | User s => cases s <;> simp_all [CrontabEntry.period, CrontabEntry.calendar]
  | System s => cases s <;> simp_all [CrontabEntry.period, CrontabEntry.calendar]

end EntryLemmas

/-- The calendar used by the spec's worked example: day-of-week and
day-of-month wildcards, months 1, 3, 5, hour 9, minutes 0 and 30. -/
def exampleCalendar : Calendar :=
  ⟨[.Full 1], [.Full 1],
   [.Range 1 1 1, .Range 3 3 1, .Range 5 5 1],
   [.Range 9 9 1], [.Range 0 30 30]⟩

/-- C6: for every bounded domain, linearizing the single full-domain
step-1 interval yields the wildcard token `*`. -/
theorem linearize_wildcard (d : BoundedDomain) :
    linearize d [Interval.Full 1] = "*" := by
  simp [linearize]

/-- C10: linearize is total on the empty interval list and returns the
empty string there (the trailing-separator pop is a no-op on an empty
accumulator), not the wildcard token and not a failure. -/
theorem linearize_empty_total (d : BoundedDomain) :
    linearize d [] = "" ∧ linearize d [] ≠ "*" := by
  have h : linearize d [] = "" := by
    rw [linearize, if_neg (by simp)]
    rfl
  exact ⟨h, by rw [h]; decide⟩

/-- C1: falsifying evaluation — a `Quaterly` period entry with resolved
delay 0 and hour 0 translates to the misspelled token `"@quaterly"`,
which is not the documented shorthand `"@quarterly"`. -/
theorem quarterly_shorthand_typo :
    (generate_systemd_units (.User (.Period .Quaterly)) (fun _ => none)).schedule =
      some "@quaterly" ∧ "@quaterly" ≠ "@quarterly" := by
  exact ⟨rfl, by decide⟩

/-- C2: every `Reboot` translation yields no calendar expression,
forces persistence to `false`, and raises a resolved delay of `0`
to `1` (leaving a non-zero delay unchanged), all together. -/
theorem reboot_translation (entry : CrontabEntry) (env : Env)
    (h : entry.period = some Period.Reboot) :
    (generate_systemd_units entry env).schedule = none ∧
    (generate_systemd_units entry env).persistent = false ∧
    (generate_systemd_units entry env).delay =
      (if resolveDelay env = 0 then 1 else resolveDelay env) := by
  have hc := calendar_none_of_period_some h
  simp [generate_systemd_units, h, hc, translatePeriod]

theorem reboot_translation_witness :
    (CrontabEntry.User (.Period .Reboot)).period = some Period.Reboot ∧
    ((generate_systemd_units (.User (.Period .Reboot)) (fun _ => none)).schedule = none ∧
     (generate_systemd_units (.User (.Period .Reboot)) (fun _ => none)).persistent = false ∧
     (generate_systemd_units (.User (.Period .Reboot)) (fun _ => none)).delay =
       (if resolveDelay (fun _ => none) = 0 then 1 else resolveDelay (fun _ => none))) :=
  ⟨by decide, reboot_translation (.User (.Period .Reboot)) (fun _ => none) rfl⟩

/-- C3: the resolved persistence agrees with the spec's rule — explicit
`yes`/`true`/`1` give `true`; `auto`, empty or absent fall back to a
default that is `true` exactly for anacron entries and user or system
entries with a `Period` schedule; every other literal gives `false`. -/
theorem persistent_resolution_matches_spec (env : Env) (entry : CrontabEntry) :
    resolvePersistent env entry = persistentSpec env entry := by
  have hd : defaultPersistent entry = defaultPersistentSpec entry := by
    cases entry with
    | Anacron s => rfl
    | User s => cases s <;> rfl
    | System s => cases s <;> rfl
  rcases h : env "PERSISTENT" with _ | v
  · simp [resolvePersistent, persistentSpec, h, hd]
  · simp only [resolvePersistent, persistentSpec, h, Option.some.injEq, Option.some_bind]
    by_cases h1 : v = "yes" ∨ v = "true" ∨ v = "1"
    · simp [h1]
    · by_cases h2 : v = "auto" ∨ v = ""
      · simp [h1, h2, hd]
      · simp [h1, h2]

/-- C4: every calendar-schedule entry translates to the five fields
linearized independently and joined as
`<dow> *-<month>-<day> <hour>:<minute>:00`, and the calendar branch
leaves the resolved persistence unchanged. -/
theorem calendar_translation (entry : CrontabEntry) (env : Env) (c : Calendar)
    (h : entry.calendar = some c) :
    (generate_systemd_units entry env).schedule =
      some (linearize dowDomain c.dows ++ " *-" ++ linearize monDomain c.mons ++ "-" ++
            linearize dayDomain c.days ++ " " ++ linearize hourDomain c.hrs ++ ":" ++
            linearize minDomain c.mins ++ ":00") ∧
    (generate_systemd_units entry env).persistent = resolvePersistent env entry := by
  have hp := period_none_of_calendar_some h
  simp [generate_systemd_units, h, hp, calendarExpr]

theorem calendar_translation_witness :
    (generate_systemd_units (.User (.Calendar exampleCalendar)) (fun _ => none)).schedule =
      some "* *-1,3,5-* 9:0,30:00" ∧
    (generate_systemd_units (.User (.Calendar exampleCalendar)) (fun _ => none)).persistent =
      false := by
  have h := calendar_translation (.User (.Calendar exampleCalendar)) (fun _ => none)
    exampleCalendar rfl
  exact ⟨h.1.trans (by decide), h.2.trans (by decide)⟩

/-- C5: linearization is order-independent and deduplicating — a
permutation of a non-empty interval list linearizes to the same string,
the rendered member sequence is strictly ascending (so each value
appears exactly once), and its members are exactly the values of the
intervals' expansions. -/
theorem linearize_order_independent (d : BoundedDomain) (l l' : List Interval)
    (hne : l ≠ []) (hp : l.Perm l') :
    linearize d l = linearize d l' ∧
    (btreeSetOf (expandAll d l)).Pairwise (· < ·) ∧
    (btreeSetOf (expandAll d l)).Nodup ∧
    (∀ a, a ∈ btreeSetOf (expandAll d l) ↔ a ∈ expandAll d l) := by
  refine ⟨?_, btreeSetOf_pairwise _, (btreeSetOf_pairwise _).imp ne_of_lt,
    fun a => mem_btreeSetOf a _⟩
  unfold linearize
  by_cases h1 : l = [Interval.Full 1]
  · have h2 : l' = [Interval.Full 1] := by
      rw [h1] at hp
      exact List.perm_singleton.mp hp.symm
    rw [if_pos h1, if_pos h2]
  · have h2 : l' ≠ [Interval.Full 1] := by
      intro he
      rw [he] at hp
      exact h1 (List.perm_singleton.mp hp)
    rw [if_neg h1, if_neg h2, btreeSetOf_expandAll_perm d hp]

theorem linearize_order_independent_witness :
    ([Interval.Range 5 6 1, Interval.Range 0 10 3] : List Interval) ≠ [] ∧
    ([Interval.Range 5 6 1, Interval.Range 0 10 3] : List Interval).Perm
      [Interval.Range 0 10 3, Interval.Range 5 6 1] ∧
    linearize minDomain [Interval.Range 5 6 1, Interval.Range 0 10 3] =
      linearize minDomain [Interval.Range 0 10 3, Interval.Range 5 6 1] :=
  ⟨by decide, by decide,
   (linearize_order_independent minDomain
     [Interval.Range 5 6 1, Interval.Range 0 10 3]
     [Interval.Range 0 10 3, Interval.Range 5 6 1] (by decide) (by decide)).1⟩

/-- C7: for a `Days n` period, `n ≤ 31` produces the day-of-month
stepped form without any division by 30, and `n > 31` produces the
month-stepped form whose divisor `n / 30` is at least 1, so no division
by zero occurs. -/
theorem days_division_safe (n delay hour : Nat) (persistent : Bool) :
    (31 < n →
      (translatePeriod (.Days n) persistent delay hour).1 =
        some ("*-1/" ++ toString (n / 30) ++ "-1 " ++ toString hour ++ ":" ++
              toString delay ++ ":0") ∧
      1 ≤ n / 30) ∧
    (n ≤ 31 →
      (translatePeriod (.Days n) persistent delay hour).1 =
        some ("*-*-1/" ++ toString n ++ " " ++ toString hour ++ ":" ++
              toString delay ++ ":0")) := by
  constructor
  · intro h
    refine ⟨?_, (Nat.one_le_div_iff (by omega)).mpr (by omega)⟩
    simp [translatePeriod, h]
  · intro h
    simp [translatePeriod, Nat.not_lt.mpr h]

theorem days_division_safe_witness :
    31 < 60 ∧ 1 ≤ 60 / 30 ∧
    (translatePeriod (.Days 60) true 0 0).1 = some "*-1/2-1 0:0:0" ∧
    7 ≤ 31 ∧ (translatePeriod (.Days 7) true 0 0).1 = some "*-*-1/7 0:0:0" :=
  ⟨by decide, ((days_division_safe 60 0 0 true).1 (by decide)).2,
   ((days_division_safe 60 0 0 true).1 (by decide)).1,
   by decide, (days_division_safe 7 0 0 true).2 (by decide)⟩

/-- C8: falsifying evaluation — with `START_HOURS_RANGE="3-22"` the
code resolves the start hour to `0`, because `splitn(1, '-')` yields
the whole unsplit string (which fails to parse), while the spec's rule
("substring before the first `-`") yields `3`. -/
theorem start_hours_range_bug :
    resolveHour (fun k => if k = "START_HOURS_RANGE" then some "3-22" else none) = 0 ∧
    hourSpec (some "3-22") = 3 ∧
    rustSplitn 1 '-' "3-22" = ["3-22"] := by
  refine ⟨by decide, by decide, by decide⟩

/-- C9: the override resolver is total and best-effort — `RANDOM_DELAY`
resolves to its parsed value or default `1` (in particular
`"notanumber"` yields `1`), `DELAY` to its parsed value or default `0`,
and `BATCH` is `true` exactly for the literals `yes`, `true`, `1`. -/
theorem override_resolver_best_effort (env : Env) :
    resolveRandomDelay env = (match env "RANDOM_DELAY" with
      | some v => (parseU64 v).getD 1
      | none => 1) ∧
    resolveDelay env = (match env "DELAY" with
      | some v => (parseU64 v).getD 0
      | none => 0) ∧
    (resolveBatch env = true ↔
      env "BATCH" = some "yes" ∨ env "BATCH" = some "true" ∨ env "BATCH" = some "1") ∧
    resolveRandomDelay (fun k => if k = "RANDOM_DELAY" then some "notanumber" else none) = 1 := by
  refine ⟨?_, ?_, ?_, by decide⟩
  · rcases h : env "RANDOM_DELAY" with _ | v <;> simp [resolveRandomDelay, h]
  · rcases h : env "DELAY" with _ | v <;> simp [resolveDelay, h]
  · rcases h : env "BATCH" with _ | v
    · simp [resolveBatch, h]
    · simp [resolveBatch, h, decide_eq_true_iff]

end CronNext
